import Mathlib

/-!
# Doctor-G — Analysis Orchestration and Conversation Log Engine

A shallow embedding of the Doctor-G repository for verification.

The repository ships the React frontend (chat interface, dashboard, history
page, API client) and a README describing the FastAPI backend; the backend
code itself (Conversation Log, Analysis Orchestrator, Job Dispatcher) is not
part of the checked-in sources.  Frontend functions (`handleFileSelect`,
`handleQuickUploadSelect`, `sendMessage`, `ChatMessage` rendering,
`deleteConversation`) are translated directly from the JavaScript sources.
Backend behaviour is modelled from the specification; every such definition
carries a doc comment starting with `Modelled from the spec:`.

Machine integers do not occur (all counters are unbounded `Nat` in the
model); confidences are rationals, which faithfully capture comparison and
maximum of detection scores.
-/

namespace DoctorG

/-! ## Data model -/

/-- Message author role (`user` | `assistant` | `system`). -/
inductive Role
  | user
  | assistant
  | system
deriving DecidableEq

/-- Message kind (`text` | `image` | `analysis`). -/
inductive Kind
  | text
  | image
  | analysis
deriving DecidableEq

/-- One detection returned by the Detector: label, confidence score and
bounding box.  Scores are modelled as rationals. -/
structure Detection where
  label : String
  confidence : ℚ
  bbox : List ℚ
deriving DecidableEq

/-- Structured metadata carried by an `analysis` message: the aggregated
confidence (highest detection score, or `none` when the detection list is
empty) and the full detection list. -/
structure Metadata where
  confidence : Option ℚ
  detected_objects : List Detection
deriving DecidableEq

/-- A persisted message of a conversation. -/
structure Message where
  id : Nat
  conversationId : Nat
  seq : Nat
  role : Role
  kind : Kind
  content : String
  metadata : Option Metadata
  createdAt : Nat
deriving DecidableEq

/-- A conversation record: identity, owner, title, timestamps and the
message counter that doubles as the per-conversation sequence counter. -/
structure Conversation where
  id : Nat
  ownerId : Nat
  title : String
  createdAt : Nat
  updatedAt : Nat
  messageCount : Nat
deriving DecidableEq

/-- Scan lifecycle states:
`Pending → Detecting → Detected → Interpreting → Complete | Failed`. -/
inductive ScanStatus
  | pending
  | detecting
  | detected
  | interpreting
  | complete
  | failed
deriving DecidableEq

/-- `Complete` and `Failed` are the two terminal states. -/
def ScanStatus.isTerminal : ScanStatus → Bool
  | .complete => true
  | .failed => true
  | _ => false

/-- Failure taxonomy for a failed scan. -/
inductive FailureReason
  | detectionTimeout
  | detectionError
  | interpretationError
  | interpretationRateLimited
deriving DecidableEq

/-- A scan: one submitted image's analysis lineage. -/
structure Scan where
  id : Nat
  conversationId : Nat
  imageRef : String
  status : ScanStatus
  detectionResult : Option (List Detection)
  failureReason : Option FailureReason
deriving DecidableEq

/-- Error taxonomy surfaced at admission time. -/
inductive Err
  | notFound
  | forbidden
  | invalidInput
  | conflict
deriving DecidableEq

/-- The durable store: conversations, messages, scans, and fresh-id
counters. -/
structure Store where
  convs : List Conversation
  msgs : List Message
  scans : List Scan
  nextConvId : Nat
  nextMsgId : Nat
  nextScanId : Nat
deriving DecidableEq

/-- The empty store. -/
def emptyStore : Store := ⟨[], [], [], 0, 0, 0⟩

/-- A message draft: everything of a message except identity, sequence
number and timestamp, which the log assigns on append. -/
structure Draft where
  role : Role
  kind : Kind
  content : String
  metadata : Option Metadata
deriving DecidableEq

/-! ## Conversation Log (modelled from the spec, §4.1) -/

/-- Look up a conversation by id. -/
def findConv (s : Store) (cid : Nat) : Option Conversation :=
  s.convs.find? (fun c => c.id == cid)

/-- Look up a scan by id. -/
def findScan (s : Store) (sid : Nat) : Option Scan :=
  s.scans.find? (fun sc => sc.id == sid)

/-- The messages of conversation `cid`, in append order. -/
def msgsOf (s : Store) (cid : Nat) : List Message :=
  s.msgs.filter (fun m => m.conversationId == cid)

/-- The sequence numbers of conversation `cid`, in append order. -/
def seqsOf (s : Store) (cid : Nat) : List Nat :=
  (msgsOf s cid).map (fun m => m.seq)

/-- The message built by an append: fresh id, the conversation's next
sequence number, and the draft's payload. -/
def mkMessage (s : Store) (cid : Nat) (c : Conversation) (d : Draft) (now : Nat) :
    Message :=
  ⟨s.nextMsgId, cid, c.messageCount + 1, d.role, d.kind, d.content, d.metadata, now⟩

/-- Bump a conversation's message counter and last-update timestamp. -/
def bumpConv (c : Conversation) (now : Nat) : Conversation :=
  { c with messageCount := c.messageCount + 1, updatedAt := now }

/-- Modelled from the spec: `appendMessage(conversationId, draft)` fails with
`NotFound` for an absent conversation, otherwise assigns the next sequence
number (`messageCount + 1`), persists the message and bumps the
conversation's `updatedAt`/`messageCount`.  The whole update is one pure
state transition, so it is atomic by construction; concurrent appenders are
serialized per conversation (single-writer discipline), which the trace
semantics below models by interleaving whole `append` operations. -/
def appendMessage (s : Store) (cid : Nat) (d : Draft) (now : Nat) :
    Except Err (Store × Message) :=
  match findConv s cid with
  | none => .error .notFound
  | some c =>
    .ok ({ s with
            msgs := s.msgs ++ [mkMessage s cid c d now]
            convs := s.convs.map (fun x => if x.id == cid then bumpConv c now else x)
            nextMsgId := s.nextMsgId + 1 }, mkMessage s cid c d now)

/-- The initial system greeting appended atomically with conversation
creation. -/
def greetingDraft : Draft :=
  ⟨.system, .text, "Hello! Upload an X-ray image or ask a question.", none⟩

/-- Modelled from the spec: `createConversation(ownerId)` creates a
conversation with its sequence counter at 0 and appends one initial system
greeting atomically with the creation. -/
def createConversation (s : Store) (owner now : Nat) : Store × Conversation :=
  let c : Conversation := ⟨s.nextConvId, owner, "New Conversation", now, now, 0⟩
  let s1 : Store := { s with convs := s.convs ++ [c], nextConvId := s.nextConvId + 1 }
  match appendMessage s1 c.id greetingDraft now with
  | .ok (s2, _) => (s2, c)
  | .error _ => (s1, c)

/-- Modelled from the spec: `listMessages(conversationId)` (`GetMessages`)
fails with `NotFound` for an absent conversation, otherwise returns the
conversation's committed messages by ascending sequence number. -/
def listMessages (s : Store) (cid : Nat) : Except Err (List Message) :=
  match findConv s cid with
  | none => .error .notFound
  | some _ => .ok (msgsOf s cid)

/-- Modelled from the spec: `deleteConversation(conversationId)` fails with
`NotFound` if absent; otherwise removes the conversation, its messages and
its scans as one logical unit.  The removal is a single pure state
transition, so a partially deleted state is never observable. -/
def deleteConversation (s : Store) (cid : Nat) : Except Err Store :=
  match findConv s cid with
  | none => .error .notFound
  | some _ =>
    .ok { s with
            convs := s.convs.filter (fun c => c.id != cid)
            msgs := s.msgs.filter (fun m => m.conversationId != cid)
            scans := s.scans.filter (fun sc => sc.conversationId != cid) }

/-! ## Trace semantics for the store

Concurrent clients are modelled by an arbitrary interleaving of whole
operations: the spec's single-writer-per-conversation discipline makes every
append an indivisible unit, so any concurrent execution is observationally
one of these traces. -/

/-- One store operation of a trace. -/
inductive Op
  | create (owner now : Nat)
  | append (cid : Nat) (d : Draft) (now : Nat)
  | delete (cid : Nat)

/-- Apply one operation; a failing operation leaves the store unchanged. -/
def stepOp (s : Store) (op : Op) : Store :=
  match op with
  | .create owner now => (createConversation s owner now).1
  | .append cid d now =>
    match appendMessage s cid d now with
    | .ok (s', _) => s'
    | .error _ => s
  | .delete cid =>
    match deleteConversation s cid with
    | .ok s' => s'
    | .error _ => s

/-- Run a trace of operations from the empty store. -/
def runOps (ops : List Op) : Store :=
  ops.foldl stepOp emptyStore

/-- The store invariant maintained by every operation: conversation ids are
distinct and below the fresh-id counter, messages only reference already
allocated conversation ids, and each conversation's sequence numbers are
exactly `1, 2, …, messageCount` in append order. -/
structure StoreInv (s : Store) : Prop where
  nodupIds : (s.convs.map (fun c => c.id)).Nodup
  convBound : ∀ c ∈ s.convs, c.id < s.nextConvId
  msgBound : ∀ m ∈ s.msgs, m.conversationId < s.nextConvId
  seqs : ∀ c ∈ s.convs, seqsOf s c.id = List.range' 1 c.messageCount

/-! ## Analysis Orchestrator (modelled from the spec, §4.2)

The Detector and Interpreter are external collaborators; their behaviour is
an oracle mapping the attempt number to an outcome. -/

/-- Outcome of one Detector invocation. -/
inductive DetOutcome
  | success (ds : List Detection)
  | timeout
  | failure
deriving DecidableEq

/-- Outcome of one Interpreter invocation. -/
inductive IntOutcome
  | success (narrative : String)
  | failure
  | timeout
  | rateLimited
deriving DecidableEq

/-- Modelled from the spec: fixed retry attempt budget (default 3). -/
def retryBudget : Nat := 3

/-- Modelled from the spec: run the Detector, retrying timeouts up to the
remaining `fuel` attempts; a Detector error (malformed input) is not
retried. -/
def runDetectorAux (det : Nat → DetOutcome) (attempt fuel : Nat) :
    Except FailureReason (List Detection) :=
  match fuel with
  | 0 => .error .detectionTimeout
  | fuel + 1 =>
    match det attempt with
    | .success ds => .ok ds
    | .failure => .error .detectionError
    | .timeout => runDetectorAux det (attempt + 1) fuel

/-- The detection stage with the full retry budget. -/
def runDetector (det : Nat → DetOutcome) : Except FailureReason (List Detection) :=
  runDetectorAux det 0 retryBudget

/-- Modelled from the spec: run the Interpreter, retrying rate limits up to
the remaining `fuel` attempts; errors and timeouts are classified as
`InterpretationError` and are not retried. -/
def runInterpreterAux (intp : Nat → IntOutcome) (attempt fuel : Nat) :
    Except FailureReason String :=
  match fuel with
  | 0 => .error .interpretationRateLimited
  | fuel + 1 =>
    match intp attempt with
    | .success t => .ok t
    | .failure => .error .interpretationError
    | .timeout => .error .interpretationError
    | .rateLimited => runInterpreterAux intp (attempt + 1) fuel

/-- The interpretation stage with the full retry budget. -/
def runInterpreter (intp : Nat → IntOutcome) : Except FailureReason String :=
  runInterpreterAux intp 0 retryBudget

/-- Modelled from the spec: the aggregated confidence of a detection list is
the highest-confidence detection's score, or `none` when the list is
empty. -/
def maxConfidence : List Detection → Option ℚ
  | [] => none
  | d :: ds =>
    match maxConfidence ds with
    | none => some d.confidence
    | some c => some (max d.confidence c)

/-- The metadata attached to a terminal analysis message: aggregated
confidence plus the full detection list. -/
def analysisMetadata (ds : List Detection) : Metadata :=
  ⟨maxConfidence ds, ds⟩

/-- Modelled from the spec: the raw detection summary used when the
Interpreter is unavailable (object count and a note); an empty detection
list semantically means "no abnormality found". -/
def rawSummary (ds : List Detection) : String :=
  if ds.isEmpty then
    "No abnormality found. Narrative interpretation is temporarily unavailable."
  else
    "Detected " ++ toString ds.length ++
      " object(s). Narrative interpretation is temporarily unavailable."

/-- The `image`-kind message recording that the upload was received;
appended regardless of the detection outcome. -/
def imageDraft : Draft := ⟨.user, .image, "X-ray image uploaded", none⟩

/-- The apologetic fallback analysis message appended on detection failure;
it carries no metadata. -/
def detectionFallbackDraft : Draft :=
  ⟨.assistant, .analysis, "Sorry, the X-ray could not be analyzed. Please try again.", none⟩

/-- The terminal analysis message on Interpreter success: the narrative with
the detection metadata. -/
def successDraft (ds : List Detection) (narrative : String) : Draft :=
  ⟨.assistant, .analysis, narrative, some (analysisMetadata ds)⟩

/-- The terminal analysis message on Interpreter failure: the raw detection
summary, still carrying the detection metadata. -/
def softFailDraft (ds : List Detection) : Draft :=
  ⟨.assistant, .analysis, rawSummary ds, some (analysisMetadata ds)⟩

/-- Result of one orchestrated analysis attempt: the drafts appended to the
conversation (in order), the sequence of scan states traversed, and the
failure reason, if any. -/
structure OrchResult where
  drafts : List Draft
  trace : List ScanStatus
  reason : Option FailureReason
deriving DecidableEq

/-- Modelled from the spec: the per-scan state machine.  The `image` message
is appended on admission regardless of the detection outcome.  On detection
failure the fallback analysis message is appended and the scan fails; on
detection success (including zero detections) the scan advances to
`Detected` and then `Interpreting`; on interpretation success the narrative
is appended with the detection metadata; on interpretation failure the raw
detection summary is appended, still with the detection metadata. -/
def runOrchestrator (det : Nat → DetOutcome) (intp : Nat → IntOutcome) : OrchResult :=
  match runDetector det with
  | .error r =>
    ⟨[imageDraft, detectionFallbackDraft],
     [.pending, .detecting, .failed], some r⟩
  | .ok ds =>
    match runInterpreter intp with
    | .ok t =>
      ⟨[imageDraft, successDraft ds t],
       [.pending, .detecting, .detected, .interpreting, .complete], none⟩
    | .error r =>
      ⟨[imageDraft, softFailDraft ds],
       [.pending, .detecting, .detected, .interpreting, .failed], some r⟩

/-- The final status of an orchestrated attempt is the last state of its
trace. -/
def OrchResult.finalStatus (r : OrchResult) : Option ScanStatus :=
  r.trace.getLast?

/-- A narrative "indicates no abnormality" when it opens with the no-finding
phrase. -/
def indicatesNoAbnormality (s : String) : Bool :=
  "No abnormality".data.isPrefixOf s.data

/-! ## Job Dispatcher (modelled from the spec, §4.3) and frontend upload
validation (from `handleFileSelect` / `handleQuickUploadSelect`) -/

/-- A browser `File` object as the frontend sees it: name, MIME type,
size in bytes. -/
structure JSFile where
  name : String
  type : String
  size : Nat
deriving DecidableEq

/-- The accepted MIME types, from the `allowedTypes` array of
`handleFileSelect` (and, identically, `handleQuickUploadSelect`). -/
def allowedTypes : List String :=
  ["image/jpeg", "image/jpg", "image/png", "image/gif", "image/bmp", "image/tiff"]

/-- What the file-select handlers do with a chosen file. -/
inductive FileSelectAction
  | rejectType
  | rejectSize
  | analyze (f : JSFile)
deriving DecidableEq

/-- From `ChatInterface.handleFileSelect` (second copy of the component):
reject a file whose MIME type is not allowed, then reject a file larger
than 10485760 bytes, otherwise hand the file to the upload path, which
issues the analyze request. -/
def handleFileSelect (f : JSFile) : FileSelectAction :=
  if !(allowedTypes.contains f.type) then .rejectType
  else if f.size > 10485760 then .rejectSize
  else .analyze f

/-- From `DashboardPage.handleQuickUploadSelect`: the same validation as
`handleFileSelect`, ending in the quick-upload path that issues the analyze
request. -/
def handleQuickUploadSelect (f : JSFile) : FileSelectAction :=
  if !(allowedTypes.contains f.type) then .rejectType
  else if f.size > 10485760 then .rejectSize
  else .analyze f

/-- A well-formed image reference passes both the MIME-type and the size
checks. -/
def validImageRef (f : JSFile) : Bool :=
  allowedTypes.contains f.type && f.size ≤ 10485760

/-- Modelled from the spec: `submit(conversationId, imageRef)` validates the
image reference (failing with `InvalidInput` and creating no Scan
otherwise), then creates the Scan in `Pending`. -/
def submitAnalysis (s : Store) (cid : Nat) (f : JSFile) : Except Err (Store × Nat) :=
  if !(validImageRef f) then .error .invalidInput
  else
    match findConv s cid with
    | none => .error .notFound
    | some _ =>
      .ok ({ s with
              scans := s.scans ++ [⟨s.nextScanId, cid, f.name, .pending, none, none⟩]
              nextScanId := s.nextScanId + 1 }, s.nextScanId)

/-- Modelled from the spec: re-submitting analysis for an existing Scan is
rejected with `Conflict` while the Scan is in any non-terminal state; for a
`Complete` or `Failed` Scan it is accepted and resets that same Scan (same
identity, no duplicate) to `Pending`. -/
def resubmitAnalysis (s : Store) (sid : Nat) : Except Err Store :=
  match findScan s sid with
  | none => .error .notFound
  | some sc =>
    if sc.status.isTerminal then
      .ok { s with
              scans := s.scans.map (fun x =>
                if x.id == sid then
                  { sc with status := .pending, detectionResult := none,
                            failureReason := none }
                else x) }
    else .error .conflict

/-- Two concurrent re-submissions for the same Scan, serialized by the
store: the second call observes the state left by the first (a rejected
call leaves the store unchanged). -/
def resubmitTwice (s : Store) (sid : Nat) : Except Err Store × Except Err Store :=
  match resubmitAnalysis s sid with
  | .ok s' => (.ok s', resubmitAnalysis s' sid)
  | .error e => (.error e, resubmitAnalysis s sid)

/-- How many of the two serialized calls were accepted. -/
def acceptedCount (p : Except Err Store × Except Err Store) : Nat :=
  (match p.1 with | .ok _ => 1 | .error _ => 0) +
    (match p.2 with | .ok _ => 1 | .error _ => 0)

/-! ## `ChatInterface.sendMessage` (from the source, both copies) -/

/-- A message as held in the React `messages` state: the `id` is a string
so that temporary ids like `temp-<Date.now()>` can coexist with server
ids. -/
structure UiMessage where
  id : String
  role : Role
  content : String
  message_type : Kind
  timestamp : Nat
deriving DecidableEq

/-- The optimistic temporary user message appended before the API call,
with id `temp-<now>`, role user, kind text, and the typed text as
content. -/
def mkTempMessage (text : String) (now : Nat) : UiMessage :=
  ⟨"temp-" ++ toString now, .user, text, .text, now⟩

/-- From the first copy of `ChatInterface.sendMessage` (lines 42–73 of the
component file): on an API failure the catch block runs
`setMessages(prev => prev.filter(msg => msg.id !== `temp-${Date.now()}`))`,
re-evaluating `Date.now()` at catch time (`tCatch`), not reusing the id the
temporary message was created with (at `tAppend`). -/
def sendMessageOnErrorV1 (messages : List UiMessage) (text : String)
    (tAppend tCatch : Nat) : List UiMessage :=
  (messages ++ [mkTempMessage text tAppend]).filter
    (fun m => m.id != "temp-" ++ toString tCatch)

/-- The runtime error raised by the second copy's catch block. -/
inductive SendError
  | referenceError
deriving DecidableEq

/-- From the second copy of `ChatInterface.sendMessage` (lines 208–239):
`userMessage` is declared with `const` inside the `try` block, so the
identifier is not in scope in the `catch` block; evaluating
`userMessage.id` there throws a `ReferenceError` before any message is
removed, leaving the optimistic append in place. -/
def sendMessageOnErrorV2 (messages : List UiMessage) (text : String)
    (tAppend : Nat) : List UiMessage × Option SendError :=
  (messages ++ [mkTempMessage text tAppend], some .referenceError)

/-! ## `ChatMessage` rendering (from the source) -/

/-- The metadata object of a message as JavaScript sees it: `confidence`
may be a number, `null`/absent (`none`); `detected_objects` may be an array
or `null`/absent. -/
structure JSMetadata where
  confidence : Option ℚ
  detected_objects : Option (List Detection)
deriving DecidableEq

/-- JS truthiness of a number-or-null field: `null`, `undefined` and `0`
are falsy. -/
def truthyNum : Option ℚ → Bool
  | none => false
  | some q => q != 0

/-- JS truthiness of an array-or-null field: arrays are always truthy. -/
def truthyArr : Option (List Detection) → Bool
  | none => false
  | some _ => true

/-- From `ChatMessage`: the Detection Details panel renders exactly when
`metadata` is truthy (`{metadata && (...)}`). -/
def showsDetectionPanel (md : Option JSMetadata) : Bool :=
  md.isSome

/-- From `ChatMessage`: the Confidence Level block renders exactly when the
panel renders and `metadata.confidence` is truthy
(`{metadata.confidence && (...)}`). -/
def showsConfidenceBlock (md : Option JSMetadata) : Bool :=
  match md with
  | none => false
  | some m => truthyNum m.confidence

/-- From `ChatMessage`: the Objects Detected row renders exactly when the
panel renders and
`metadata.detected_objects && metadata.detected_objects.length > 0`. -/
def showsObjectsRow (md : Option JSMetadata) : Bool :=
  match md with
  | none => false
  | some m => truthyArr m.detected_objects && (m.detected_objects.getD []).length > 0

/-- Serialize backend metadata to the JSON object the frontend receives: a
`none` confidence becomes `null`, the detection list is always an array. -/
def Metadata.toJS (m : Metadata) : JSMetadata :=
  ⟨m.confidence, some m.detected_objects⟩

/-! ## Store invariant lemmas -/

theorem findConv_mem {s : Store} {cid : Nat} {c : Conversation}
    (h : findConv s cid = some c) : c ∈ s.convs ∧ c.id = cid := by
  refine ⟨List.mem_of_find?_eq_some h, ?_⟩
  have hp := List.find?_some h
  simpa using hp

theorem conv_unique {s : Store} (hinv : StoreInv s) {x c : Conversation}
    (hx : x ∈ s.convs) (hc : c ∈ s.convs) (h : x.id = c.id) : x = c :=
  List.inj_on_of_nodup_map hinv.nodupIds hx hc h

theorem updated_convs_ids (s : Store) (cid : Nat) (c : Conversation) (now : Nat)
    (hc : c.id = cid) :
    (s.convs.map (fun x => if x.id == cid then bumpConv c now else x)).map
        (fun x => x.id) =
      s.convs.map (fun x => x.id) := by
  rw [List.map_map]
  apply List.map_congr_left
  intro x hx
  by_cases hid : x.id = cid
  · simp [Function.comp, hid, bumpConv, hc]
  · simp [Function.comp, hid]

theorem storeInv_append {s : Store} {cid : Nat} {d : Draft} {now : Nat}
    {s' : Store} {m : Message}
    (hinv : StoreInv s) (h : appendMessage s cid d now = .ok (s', m)) :
    StoreInv s' := by
  unfold appendMessage at h
  cases hc : findConv s cid with
  | none => rw [hc] at h; exact absurd h (by simp)
  | some c =>
    rw [hc] at h
    simp only [Except.ok.injEq, Prod.mk.injEq] at h
    obtain ⟨hs', hm⟩ := h
    obtain ⟨hcmem, hcid⟩ := findConv_mem hc
    subst hs'
    constructor
    · rw [updated_convs_ids s cid c now hcid]
      exact hinv.nodupIds
    · intro y hy
      simp only [List.mem_map] at hy
      obtain ⟨x, hxmem, hxy⟩ := hy
      by_cases hid : x.id = cid
      · have : y.id = c.id := by
          subst hxy; simp [hid, bumpConv]
        rw [this, hcid, ← hid]
        exact hinv.convBound x hxmem
      · have : y = x := by subst hxy; simp [hid]
        rw [this]
        exact hinv.convBound x hxmem
    · intro m' hm'
      simp only [List.mem_append, List.mem_singleton] at hm'
      rcases hm' with hm' | hm'
      · exact hinv.msgBound m' hm'
      · subst hm'
        simp only [mkMessage]
        rw [← hcid]
        exact hinv.convBound c hcmem
    · intro y hy
      simp only [List.mem_map] at hy
      obtain ⟨x, hxmem, hxy⟩ := hy
      unfold seqsOf msgsOf
      simp only [List.filter_append]
      by_cases hid : x.id = cid
      · -- x is the appended-to conversation, so x = c and y is the bumped conv
        have hxc : x = c := conv_unique hinv hxmem hcmem (by rw [hid, hcid])
        have hy' : y = bumpConv c now := by subst hxy; simp [hid]
        have hbid : (bumpConv c now).id = cid := by simp [bumpConv, hcid]
        rw [hy', hbid]
        have hsingle :
            List.filter (fun m' => m'.conversationId == cid)
              [mkMessage s cid c d now] = [mkMessage s cid c d now] := by
          simp [mkMessage]
        rw [hsingle, List.map_append]
        have hold := hinv.seqs c hcmem
        unfold seqsOf msgsOf at hold
        rw [hcid] at hold
        rw [hold]
        simp only [mkMessage, bumpConv, List.map_cons, List.map_nil]
        rw [List.range'_concat]
        simp [Nat.add_comm]
      · have hy' : y = x := by subst hxy; simp [hid]
        have hsingle :
            List.filter (fun m' => m'.conversationId == x.id)
              [mkMessage s cid c d now] = [] := by
          simp [mkMessage]
          exact fun hx => absurd hx.symm hid
        rw [hy', hsingle, List.append_nil]
        have hold := hinv.seqs x hxmem
        unfold seqsOf msgsOf at hold
        exact hold

theorem storeInv_empty : StoreInv emptyStore := by
  constructor <;> simp [emptyStore, seqsOf, msgsOf]

theorem storeInv_create {s : Store} (hinv : StoreInv s) (owner now : Nat) :
    StoreInv (createConversation s owner now).1 := by
  have h1 : StoreInv
      { s with
          convs := s.convs ++ [⟨s.nextConvId, owner, "New Conversation", now, now, 0⟩]
          nextConvId := s.nextConvId + 1 } := by
    constructor
    · dsimp only
      simp only [List.map_append, List.map_cons, List.map_nil]
      rw [List.nodup_append]
      refine ⟨hinv.nodupIds, by simp, ?_⟩
      intro a ha hb
      simp only [List.mem_map] at ha
      obtain ⟨x, hx, hax⟩ := ha
      simp only [List.mem_singleton] at hb
      have := hinv.convBound x hx
      omega
    · dsimp only
      intro c hc
      simp only [List.mem_append, List.mem_singleton] at hc
      rcases hc with hc | hc
      · have := hinv.convBound c hc; omega
      · subst hc; dsimp only; omega
    · dsimp only
      intro m hm
      have := hinv.msgBound m hm; omega
    · dsimp only
      intro c hc
      simp only [List.mem_append, List.mem_singleton] at hc
      rcases hc with hc | hc
      · exact hinv.seqs c hc
      · subst hc
        unfold seqsOf msgsOf
        dsimp only
        have hempty : List.filter
            (fun m => m.conversationId == s.nextConvId) s.msgs = [] := by
          rw [List.filter_eq_nil_iff]
          intro m hm
          have := hinv.msgBound m hm
          simp only [beq_iff_eq]
          omega
        rw [hempty]
        simp [List.range']
  unfold createConversation
  simp only []
  split
  · next s2 c2 heq =>
    exact storeInv_append h1 heq
  · exact h1

theorem storeInv_delete {s : Store} {cid : Nat} {s' : Store}
    (hinv : StoreInv s) (h : deleteConversation s cid = .ok s') :
    StoreInv s' := by
  unfold deleteConversation at h
  cases hc : findConv s cid with
  | none => rw [hc] at h; exact absurd h (by simp)
  | some c =>
    rw [hc] at h
    simp only [Except.ok.injEq] at h
    subst h
    constructor
    · exact List.Nodup.sublist
        (List.Sublist.map _ (List.filter_sublist s.convs)) hinv.nodupIds
    · intro x hx
      exact hinv.convBound x (List.mem_of_mem_filter hx)
    · intro m hm
      exact hinv.msgBound m (List.mem_of_mem_filter hm)
    · intro x hx
      rw [List.mem_filter] at hx
      obtain ⟨hxmem, hxne⟩ := hx
      have hxid : x.id ≠ cid := by simpa using hxne
      unfold seqsOf msgsOf
      simp only [List.filter_filter]
      have hfil :
          List.filter (fun m => m.conversationId == x.id &&
            m.conversationId != cid) s.msgs =
          List.filter (fun m => m.conversationId == x.id) s.msgs := by
        apply List.filter_congr
        intro m _
        by_cases hmx : m.conversationId = x.id
        · simp [hmx, hxid]
        · simp [hmx]
      rw [hfil]
      have hold := hinv.seqs x hxmem
      unfold seqsOf msgsOf at hold
      exact hold

theorem storeInv_step {s : Store} (hinv : StoreInv s) (op : Op) :
    StoreInv (stepOp s op) := by
  cases op with
  | create owner now => exact storeInv_create hinv owner now
  | append cid d now =>
    simp only [stepOp]
    split
    · next s' m heq => exact storeInv_append hinv heq
    · exact hinv
  | delete cid =>
    simp only [stepOp]
    split
    · next s' heq => exact storeInv_delete hinv heq
    · exact hinv

theorem storeInv_runOps (ops : List Op) : StoreInv (runOps ops) := by
  unfold runOps
  have h : ∀ s : Store, StoreInv s → StoreInv (ops.foldl stepOp s) := by
    induction ops with
    | nil => intro s hs; exact hs
    | cons op ops ih =>
      intro s hs
      exact ih _ (storeInv_step hs op)
  exact h emptyStore storeInv_empty

/-- C1: for every trace of (serialized, possibly concurrently submitted)
operations, the sequence numbers a reader obtains from `listMessages` are
exactly `1, 2, …, n` — strictly increasing from 1 with no gaps and no
duplicates — and `appendMessage` assigns the next sequence number and bumps
the conversation's updated-at and message-count in the one returned store. -/
theorem c1_sequence_numbers_gapless_atomic :
    (∀ (ops : List Op) (cid : Nat) (l : List Message),
        listMessages (runOps ops) cid = .ok l →
        ∃ n, l.map (fun m => m.seq) = List.range' 1 n ∧
          (l.map (fun m => m.seq)).Nodup)
    ∧ (∀ (s : Store) (cid : Nat) (d : Draft) (now : Nat) (s' : Store) (m : Message),
        appendMessage s cid d now = .ok (s', m) →
        ∃ c, findConv s cid = some c ∧
          m.seq = c.messageCount + 1 ∧
          s'.msgs = s.msgs ++ [m] ∧
          bumpConv c now ∈ s'.convs ∧
          (bumpConv c now).id = c.id ∧
          (bumpConv c now).messageCount = c.messageCount + 1 ∧
          (bumpConv c now).updatedAt = now) := by
  constructor
  · intro ops cid l h
    have hinv := storeInv_runOps ops
    unfold listMessages at h
    cases hc : findConv (runOps ops) cid with
    | none => rw [hc] at h; exact absurd h (by simp)
    | some c =>
      rw [hc] at h
      simp only [Except.ok.injEq] at h
      obtain ⟨hcmem, hcid⟩ := findConv_mem hc
      subst h
      have hseqs := hinv.seqs c hcmem
      unfold seqsOf at hseqs
      rw [hcid] at hseqs
      refine ⟨c.messageCount, hseqs, ?_⟩
      rw [hseqs]
      exact List.nodup_range' 1 c.messageCount
  · intro s cid d now s' m h
    unfold appendMessage at h
    cases hc : findConv s cid with
    | none => rw [hc] at h; exact absurd h (by simp)
    | some c =>
      rw [hc] at h
      simp only [Except.ok.injEq, Prod.mk.injEq] at h
      obtain ⟨hs', hm⟩ := h
      obtain ⟨hcmem, hcid⟩ := findConv_mem hc
      refine ⟨c, rfl, ?_, ?_, ?_, by simp [bumpConv], by simp [bumpConv], by simp [bumpConv]⟩
      · rw [← hm]; rfl
      · rw [← hs', ← hm]
      · rw [← hs']
        simp only [List.mem_map]
        exact ⟨c, hcmem, by simp [hcid]⟩

/-- The trace used by the C1 witness: one conversation created by owner 7 at
time 10, one user message appended at time 11. -/
def c1TraceW : List Op :=
  [Op.create 7 10, Op.append 0 ⟨.user, .text, "hi", none⟩ 11]

/-- The store after the C1 witness trace's first operation. -/
def c1StoreW : Store :=
  ⟨[⟨0, 7, "New Conversation", 10, 10, 1⟩],
   [⟨0, 0, 1, .system, .text, "Hello! Upload an X-ray image or ask a question.", none, 10⟩],
   [], 1, 1, 0⟩

/-- The store after the C1 witness trace. -/
def c1StoreW' : Store :=
  ⟨[⟨0, 7, "New Conversation", 10, 11, 2⟩],
   [⟨0, 0, 1, .system, .text, "Hello! Upload an X-ray image or ask a question.", none, 10⟩,
    ⟨1, 0, 2, .user, .text, "hi", none, 11⟩],
   [], 1, 2, 0⟩

/-- Witness for C1 at a concrete trace and a concrete append. -/
theorem c1_witness :
    (∃ n, (c1StoreW'.msgs.map (fun m => m.seq) = List.range' 1 n ∧
      (c1StoreW'.msgs.map (fun m => m.seq)).Nodup))
    ∧ (∃ c, findConv c1StoreW 0 = some c ∧
        (⟨1, 0, 2, .user, .text, "hi", none, 11⟩ : Message).seq = c.messageCount + 1 ∧
        c1StoreW'.msgs = c1StoreW.msgs ++ [⟨1, 0, 2, .user, .text, "hi", none, 11⟩] ∧
        bumpConv c 11 ∈ c1StoreW'.convs ∧
        (bumpConv c 11).id = c.id ∧
        (bumpConv c 11).messageCount = c.messageCount + 1 ∧
        (bumpConv c 11).updatedAt = 11) :=
  ⟨c1_sequence_numbers_gapless_atomic.1 c1TraceW 0 c1StoreW'.msgs rfl,
   c1_sequence_numbers_gapless_atomic.2 c1StoreW 0 ⟨.user, .text, "hi", none⟩ 11
     c1StoreW' ⟨1, 0, 2, .user, .text, "hi", none, 11⟩ rfl⟩

/-- C8: `deleteConversation` fails with `NotFound` for an absent id;
otherwise the single returned store — one atomic transition, so no partially
deleted state is observable — has the conversation, all its messages and all
its scans removed, and a subsequent `GetMessages` returns `NotFound`. -/
theorem c8_delete_conversation_atomic :
    ∀ (s : Store) (cid : Nat),
      (findConv s cid = none → deleteConversation s cid = .error .notFound)
      ∧ (∀ c, findConv s cid = some c →
          ∃ s', deleteConversation s cid = .ok s' ∧
            listMessages s' cid = .error .notFound ∧
            findConv s' cid = none ∧
            (∀ m ∈ s'.msgs, m.conversationId ≠ cid) ∧
            (∀ sc ∈ s'.scans, sc.conversationId ≠ cid) ∧
            s'.convs = s.convs.filter (fun c' => c'.id != cid) ∧
            s'.msgs = s.msgs.filter (fun m => m.conversationId != cid) ∧
            s'.scans = s.scans.filter (fun sc => sc.conversationId != cid)) := by
  intro s cid
  constructor
  · intro h
    unfold deleteConversation
    rw [h]
  · intro c hc
    have hnone : findConv
        { s with
            convs := s.convs.filter (fun c' => c'.id != cid)
            msgs := s.msgs.filter (fun m => m.conversationId != cid)
            scans := s.scans.filter (fun sc => sc.conversationId != cid) } cid = none := by
      unfold findConv
      dsimp only
      rw [List.find?_eq_none]
      intro x hx
      rw [List.mem_filter] at hx
      simp only [beq_iff_eq]
      have := hx.2
      simp only [bne_iff_ne, ne_eq] at this
      exact this
    refine ⟨{ s with
        convs := s.convs.filter (fun c' => c'.id != cid)
        msgs := s.msgs.filter (fun m => m.conversationId != cid)
        scans := s.scans.filter (fun sc => sc.conversationId != cid) },
      ?_, ?_, hnone, ?_, ?_, rfl, rfl, rfl⟩
    · unfold deleteConversation
      rw [hc]
    · unfold listMessages
      rw [hnone]
    · intro m hm
      dsimp only at hm
      rw [List.mem_filter] at hm
      have := hm.2
      simp only [bne_iff_ne, ne_eq] at this
      exact this
    · intro sc hsc
      dsimp only at hsc
      rw [List.mem_filter] at hsc
      have := hsc.2
      simp only [bne_iff_ne, ne_eq] at this
      exact this

/-- The store used by the C8 witness: one conversation (id 0) with its
greeting message and one scan, plus an unrelated conversation (id 1). -/
def c8StoreW : Store :=
  ⟨[⟨0, 7, "New Conversation", 10, 10, 1⟩, ⟨1, 8, "Other", 12, 12, 0⟩],
   [⟨0, 0, 1, .system, .text, "Hello! Upload an X-ray image or ask a question.", none, 10⟩],
   [⟨0, 0, "xray.png", .complete, some [], none⟩], 2, 1, 1⟩

/-- Witness for C8: deleting conversation 0 of the concrete store removes it
with its message and scan, and `GetMessages` then returns `NotFound`;
deleting the absent id 5 returns `NotFound`. -/
theorem c8_witness :
    deleteConversation c8StoreW 5 = .error .notFound
    ∧ (∃ s', deleteConversation c8StoreW 0 = .ok s' ∧
        listMessages s' 0 = .error .notFound ∧
        findConv s' 0 = none ∧
        (∀ m ∈ s'.msgs, m.conversationId ≠ 0) ∧
        (∀ sc ∈ s'.scans, sc.conversationId ≠ 0) ∧
        s'.convs = c8StoreW.convs.filter (fun c' => c'.id != 0) ∧
        s'.msgs = c8StoreW.msgs.filter (fun m => m.conversationId != 0) ∧
        s'.scans = c8StoreW.scans.filter (fun sc => sc.conversationId != 0)) :=
  ⟨(c8_delete_conversation_atomic c8StoreW 5).1 rfl,
   (c8_delete_conversation_atomic c8StoreW 0).2 ⟨0, 7, "New Conversation", 10, 10, 1⟩ rfl⟩

/-! ## Orchestrator lemmas -/

theorem maxConfidence_eq_none {ds : List Detection} (h : maxConfidence ds = none) :
    ds = [] := by
  cases ds with
  | nil => rfl
  | cons d ds =>
    unfold maxConfidence at h
    cases hds : maxConfidence ds <;> rw [hds] at h <;> simp at h

theorem maxConfidence_spec {ds : List Detection} {c : ℚ}
    (h : maxConfidence ds = some c) :
    (∃ d ∈ ds, d.confidence = c) ∧ ∀ d ∈ ds, d.confidence ≤ c := by
  induction ds generalizing c with
  | nil => simp [maxConfidence] at h
  | cons d ds ih =>
    unfold maxConfidence at h
    cases hds : maxConfidence ds with
    | none =>
      rw [hds] at h
      simp only [Option.some.injEq] at h
      have hnil := maxConfidence_eq_none hds
      subst hnil
      subst h
      exact ⟨⟨d, by simp⟩, by simp⟩
    | some c' =>
      rw [hds] at h
      simp only [Option.some.injEq] at h
      obtain ⟨⟨d', hd'mem, hd'⟩, hle⟩ := ih hds
      subst h
      constructor
      · rcases max_choice d.confidence c' with hmax | hmax
        · exact ⟨d, by simp, hmax.symm⟩
        · exact ⟨d', by simp [hd'mem], by rw [hd']; exact hmax.symm⟩
      · intro x hx
        rcases List.mem_cons.mp hx with hx | hx
        · subst hx; exact le_max_left _ _
        · exact le_trans (hle x hx) (le_max_right _ _)

theorem runInterpreterAux_error_reason {intp : Nat → IntOutcome}
    {attempt fuel : Nat} {r : FailureReason}
    (h : runInterpreterAux intp attempt fuel = .error r) :
    r = .interpretationError ∨ r = .interpretationRateLimited := by
  induction fuel generalizing attempt with
  | zero =>
    unfold runInterpreterAux at h
    simp only [Except.error.injEq] at h
    right; exact h.symm
  | succ fuel ih =>
    unfold runInterpreterAux at h
    cases hi : intp attempt <;> rw [hi] at h
    · simp at h
    · simp only [Except.error.injEq] at h; left; exact h.symm
    · simp only [Except.error.injEq] at h; left; exact h.symm
    · exact ih h

theorem runInterpreter_error_reason {intp : Nat → IntOutcome} {r : FailureReason}
    (h : runInterpreter intp = .error r) :
    r = .interpretationError ∨ r = .interpretationRateLimited :=
  runInterpreterAux_error_reason h

theorem kind_image_beq_image : (Kind.image == Kind.image) = true := rfl

theorem kind_analysis_beq_image : (Kind.analysis == Kind.image) = false := rfl

theorem kind_image_beq_analysis : (Kind.image == Kind.analysis) = false := rfl

theorem kind_analysis_beq_analysis : (Kind.analysis == Kind.analysis) = true := rfl

/-- C2: on every path — detector failure/timeout, interpreter
failure/timeout/rate-limit, and success — the orchestrated attempt appends
exactly one `image`-kind message and exactly one `analysis`-kind message,
and the analysis message is the terminal one. -/
theorem c2_exactly_one_image_and_analysis :
    ∀ (det : Nat → DetOutcome) (intp : Nat → IntOutcome),
      ((runOrchestrator det intp).drafts.filter
          (fun d => d.kind == Kind.image)).length = 1
      ∧ ((runOrchestrator det intp).drafts.filter
          (fun d => d.kind == Kind.analysis)).length = 1
      ∧ (∃ d, (runOrchestrator det intp).drafts.getLast? = some d ∧
          d.kind = Kind.analysis) := by
  intro det intp
  unfold runOrchestrator
  cases runDetector det with
  | error r =>
    refine ⟨?_, ?_, ?_⟩ <;>
      simp [imageDraft, detectionFallbackDraft, List.filter,
        kind_image_beq_image, kind_analysis_beq_image,
        kind_image_beq_analysis, kind_analysis_beq_analysis]
  | ok ds =>
    cases runInterpreter intp with
    | ok t =>
      refine ⟨?_, ?_, ?_⟩ <;>
        simp [imageDraft, successDraft, List.filter,
          kind_image_beq_image, kind_analysis_beq_image,
          kind_image_beq_analysis, kind_analysis_beq_analysis]
    | error r =>
      refine ⟨?_, ?_, ?_⟩ <;>
        simp [imageDraft, softFailDraft, List.filter,
          kind_image_beq_image, kind_analysis_beq_image,
          kind_image_beq_analysis, kind_analysis_beq_analysis]

/-- C4: when the Interpreter succeeds, the terminal analysis message carries
the interpreter's narrative, detected_objects equal to the full detection
list, and confidence equal to the highest-confidence detection's score
(`none` when the detection list is empty). -/
theorem c4_success_confidence_is_max :
    ∀ (det : Nat → DetOutcome) (intp : Nat → IntOutcome)
      (ds : List Detection) (t : String),
      runDetector det = .ok ds →
      runInterpreter intp = .ok t →
      (runOrchestrator det intp).drafts.getLast? =
          some ⟨.assistant, .analysis, t, some ⟨maxConfidence ds, ds⟩⟩
      ∧ (ds = [] → maxConfidence ds = none)
      ∧ (∀ c, maxConfidence ds = some c →
          (∃ d ∈ ds, d.confidence = c) ∧ ∀ d ∈ ds, d.confidence ≤ c) := by
  intro det intp ds t hdet hint
  refine ⟨?_, ?_, fun c hc => maxConfidence_spec hc⟩
  · unfold runOrchestrator
    rw [hdet, hint]
    rfl
  · intro h; subst h; rfl

/-- The detection list of the C4 witness scenario: two detections with
confidences 0.85 and 0.42. -/
def c4DetectionsW : List Detection :=
  [⟨"nodule", mkRat 85 100, []⟩, ⟨"nodule", mkRat 42 100, []⟩]

/-- Detector oracle for the C4 witness. -/
def c4DetW : Nat → DetOutcome := fun _ => .success c4DetectionsW

/-- Interpreter oracle for the C4 witness. -/
def c4IntpW : Nat → IntOutcome := fun _ => .success "Two findings explained."

/-- Witness for C4 at the spec's scenario `[{conf:0.85},{conf:0.42}]`:
the terminal metadata has two detected objects and confidence 0.85. -/
theorem c4_witness :
    ((runOrchestrator c4DetW c4IntpW).drafts.getLast? =
        some ⟨.assistant, .analysis, "Two findings explained.",
          some ⟨maxConfidence c4DetectionsW, c4DetectionsW⟩⟩
      ∧ (c4DetectionsW = [] → maxConfidence c4DetectionsW = none)
      ∧ (∀ c, maxConfidence c4DetectionsW = some c →
          (∃ d ∈ c4DetectionsW, d.confidence = c) ∧
            ∀ d ∈ c4DetectionsW, d.confidence ≤ c))
    ∧ maxConfidence c4DetectionsW = some (mkRat 85 100)
    ∧ c4DetectionsW.length = 2 :=
  ⟨c4_success_confidence_is_max c4DetW c4IntpW c4DetectionsW
      "Two findings explained." rfl rfl,
   by decide, rfl⟩

/-- C5: when the Detector succeeds but the Interpreter fails after
exhausting retries, the terminal analysis message still carries the raw
detection summary with the detection metadata populated, and the scan ends
`Failed` with reason `InterpretationError` or `InterpretationRateLimited`. -/
theorem c5_interpreter_failure_keeps_detection :
    ∀ (det : Nat → DetOutcome) (intp : Nat → IntOutcome)
      (ds : List Detection) (r : FailureReason),
      runDetector det = .ok ds →
      runInterpreter intp = .error r →
      (runOrchestrator det intp).drafts.getLast? =
          some ⟨.assistant, .analysis, rawSummary ds, some ⟨maxConfidence ds, ds⟩⟩
      ∧ (runOrchestrator det intp).finalStatus = some .failed
      ∧ (runOrchestrator det intp).reason = some r
      ∧ (r = .interpretationError ∨ r = .interpretationRateLimited) := by
  intro det intp ds r hdet hint
  refine ⟨?_, ?_, ?_, runInterpreter_error_reason hint⟩
  all_goals
    unfold runOrchestrator
    rw [hdet, hint]
    try rfl

/-- Detector oracle for the C5 witness: one detection. -/
def c5DetW : Nat → DetOutcome := fun _ => .success [⟨"nodule", mkRat 3 4, []⟩]

/-- Interpreter oracle for the C5 witness: rate-limited on every attempt,
so the retry budget is exhausted. -/
def c5IntpW : Nat → IntOutcome := fun _ => .rateLimited

/-- Witness for C5: detector succeeds, interpreter rate-limited on all
attempts. -/
theorem c5_witness :
    (runOrchestrator c5DetW c5IntpW).drafts.getLast? =
        some ⟨.assistant, .analysis, rawSummary [⟨"nodule", mkRat 3 4, []⟩],
          some ⟨maxConfidence [⟨"nodule", mkRat 3 4, []⟩], [⟨"nodule", mkRat 3 4, []⟩]⟩⟩
    ∧ (runOrchestrator c5DetW c5IntpW).finalStatus = some .failed
    ∧ (runOrchestrator c5DetW c5IntpW).reason = some .interpretationRateLimited
    ∧ (FailureReason.interpretationRateLimited = .interpretationError ∨
        FailureReason.interpretationRateLimited = .interpretationRateLimited) :=
  c5_interpreter_failure_keeps_detection c5DetW c5IntpW
    [⟨"nodule", mkRat 3 4, []⟩] .interpretationRateLimited rfl rfl

/-- C6: a Detector result with zero detections is a valid non-error result:
the scan passes through `Detected` (instead of failing at the detection
stage), and the terminal analysis message carries an empty detected-objects
list, `none` confidence, and content indicating no abnormality (the
hypothesis on the interpreter narrative is the external Interpreter's
contract for an empty detection result). -/
theorem c6_zero_detections_valid :
    ∀ (det : Nat → DetOutcome) (intp : Nat → IntOutcome),
      runDetector det = .ok [] →
      (∀ t, runInterpreter intp = .ok t → indicatesNoAbnormality t = true) →
      ScanStatus.detected ∈ (runOrchestrator det intp).trace
      ∧ ∃ d, (runOrchestrator det intp).drafts.getLast? = some d ∧
          d.kind = .analysis ∧
          d.metadata = some ⟨none, []⟩ ∧
          indicatesNoAbnormality d.content = true := by
  intro det intp hdet hint
  unfold runOrchestrator
  rw [hdet]
  cases hi : runInterpreter intp with
  | ok t =>
    exact ⟨by simp, successDraft [] t, rfl, rfl, rfl, hint t hi⟩
  | error r =>
    exact ⟨by simp, softFailDraft [], rfl, rfl, rfl, by decide⟩

/-- Detector oracle for the C6 witness: zero detections. -/
def c6DetW : Nat → DetOutcome := fun _ => .success []

/-- Interpreter oracle for the C6 witness. -/
def c6IntpW : Nat → IntOutcome :=
  fun _ => .success "No abnormality detected in this X-ray."

/-- Witness for C6 at concrete zero-detection oracles. -/
theorem c6_witness :
    ScanStatus.detected ∈ (runOrchestrator c6DetW c6IntpW).trace
    ∧ ∃ d, (runOrchestrator c6DetW c6IntpW).drafts.getLast? = some d ∧
        d.kind = .analysis ∧
        d.metadata = some ⟨none, []⟩ ∧
        indicatesNoAbnormality d.content = true :=
  c6_zero_detections_valid c6DetW c6IntpW rfl
    (by
      intro t ht
      have heval : runInterpreter c6IntpW =
          Except.ok "No abnormality detected in this X-ray." := rfl
      rw [heval] at ht
      have h2 := Except.ok.inj ht
      subst h2
      decide)

theorem find?_map_update {l : List Scan} {sid : Nat} {sc newSc : Scan}
    (hnew : newSc.id = sid)
    (hfind : l.find? (fun x => x.id == sid) = some sc) :
    (l.map (fun x => if x.id == sid then newSc else x)).find?
        (fun x => x.id == sid) = some newSc := by
  induction l with
  | nil => simp at hfind
  | cons a l ih =>
    by_cases ha : a.id = sid
    · simp [List.find?, ha, hnew]
    · rw [List.find?] at hfind
      have hpa : (a.id == sid) = false := by simp [ha]
      rw [hpa] at hfind
      simp only [List.map]
      rw [List.find?]
      have : (if (a.id == sid) = true then newSc else a).id = a.id := by
        simp [ha]
      rw [if_neg (by simp [ha])]
      rw [hpa]
      exact ih hfind

/-- C3 (amended): re-submitting analysis for a Scan in any non-terminal
state is rejected with `Conflict` — under the serialized store, both of two
concurrent re-submissions for a non-terminal Scan are rejected (zero
accepted), not one.  Re-submitting for a `Complete` or `Failed` Scan is
accepted and resets that same Scan (same identity, the scan count is
unchanged, so no duplicate) to `Pending`; of two concurrent re-submissions
for a terminal Scan, exactly one is accepted and one gets `Conflict`. -/
theorem c3_resubmission_conflict_and_reset :
    ∀ (s : Store) (sid : Nat) (sc : Scan),
      findScan s sid = some sc →
      (sc.status.isTerminal = false →
          resubmitAnalysis s sid = .error .conflict ∧
          acceptedCount (resubmitTwice s sid) = 0)
      ∧ (sc.status.isTerminal = true →
          ∃ s', resubmitAnalysis s sid = .ok s' ∧
            findScan s' sid = some { sc with
              status := .pending
              detectionResult := none
              failureReason := none } ∧
            s'.scans.length = s.scans.length ∧
            acceptedCount (resubmitTwice s sid) = 1) := by
  intro s sid sc hfind
  have hid : sc.id = sid := by
    have := List.find?_some hfind
    simpa using this
  constructor
  · intro hterm
    have hconf : resubmitAnalysis s sid = .error .conflict := by
      unfold resubmitAnalysis
      rw [hfind]
      simp [hterm]
    refine ⟨hconf, ?_⟩
    unfold resubmitTwice
    rw [hconf]
    simp only [acceptedCount, hconf]
  · intro hterm
    have hok : resubmitAnalysis s sid = .ok
        { s with scans := s.scans.map (fun x =>
            if x.id == sid then
              { sc with status := .pending, detectionResult := none,
                        failureReason := none }
            else x) } := by
      unfold resubmitAnalysis
      rw [hfind]
      simp [hterm]
    have hfind' : findScan
        { s with scans := s.scans.map (fun x =>
            if x.id == sid then
              { sc with status := .pending, detectionResult := none,
                        failureReason := none }
            else x) } sid = some { sc with
              status := .pending
              detectionResult := none
              failureReason := none } := by
      unfold findScan
      dsimp only
      exact find?_map_update (by simp [hid]) hfind
    refine ⟨_, hok, hfind', by simp, ?_⟩
    have hconf2 : resubmitAnalysis
        { s with scans := s.scans.map (fun x =>
            if x.id == sid then
              { sc with status := .pending, detectionResult := none,
                        failureReason := none }
            else x) } sid = .error .conflict := by
      unfold resubmitAnalysis
      rw [hfind']
      simp [ScanStatus.isTerminal]
    unfold resubmitTwice
    rw [hok]
    simp only [acceptedCount, hconf2]

/-- The store of the C3 counterexample: one existing Scan (id 0) in the
non-terminal state `Detecting`. -/
def c3StoreCE : Store :=
  ⟨[⟨0, 9, "New Conversation", 0, 0, 0⟩], [],
   [⟨0, 0, "xray.png", .detecting, none, none⟩], 1, 0, 1⟩

/-- Counterexample to C3 as stated: for an existing non-terminal Scan, two
concurrent (serialized) `SubmitAnalysis` re-submissions are BOTH rejected
with `Conflict` — zero accepted, not "exactly one accepted and one
Conflict". -/
theorem c3_counterexample :
    findScan c3StoreCE 0 = some ⟨0, 0, "xray.png", .detecting, none, none⟩
    ∧ (ScanStatus.detecting).isTerminal = false
    ∧ resubmitTwice c3StoreCE 0 =
        (.error .conflict, .error .conflict)
    ∧ acceptedCount (resubmitTwice c3StoreCE 0) = 0
    ∧ ¬ acceptedCount (resubmitTwice c3StoreCE 0) = 1 := by
  refine ⟨rfl, rfl, rfl, rfl, by decide⟩

/-- The store of the C3 witness: one Scan (id 0) already `Failed`. -/
def c3StoreW : Store :=
  ⟨[⟨0, 9, "New Conversation", 0, 0, 0⟩], [],
   [⟨0, 0, "xray.png", .failed, none, some .detectionError⟩], 1, 0, 1⟩

/-- Witness for C3 (amended) at concrete stores: a `Detecting` scan is
rejected with zero accepted calls; a `Failed` scan is reset to `Pending`
with exactly one of two serialized calls accepted. -/
theorem c3_witness :
    (resubmitAnalysis c3StoreCE 0 = .error .conflict ∧
      acceptedCount (resubmitTwice c3StoreCE 0) = 0)
    ∧ (∃ s', resubmitAnalysis c3StoreW 0 = .ok s' ∧
        findScan s' 0 = some ⟨0, 0, "xray.png", .pending, none, none⟩ ∧
        s'.scans.length = c3StoreW.scans.length ∧
        acceptedCount (resubmitTwice c3StoreW 0) = 1) := by
  refine ⟨(c3_resubmission_conflict_and_reset c3StoreCE 0
      ⟨0, 0, "xray.png", .detecting, none, none⟩ rfl).1 rfl, ?_⟩
  exact (c3_resubmission_conflict_and_reset c3StoreW 0
      ⟨0, 0, "xray.png", .failed, none, some .detectionError⟩ rfl).2 rfl

/-- C7: a file whose MIME type is outside the accepted image set, or whose
size exceeds 10485760 bytes, is rejected by both frontend handlers (no
analyze request is issued) and by the submission contract with
`InvalidInput` (no Scan is created, since no store is returned); a file
passing both checks triggers the analyze request, and its submission
creates a `Pending` Scan. -/
theorem c7_upload_validation :
    ∀ f : JSFile,
      (allowedTypes.contains f.type = false →
          handleFileSelect f = .rejectType ∧
          handleQuickUploadSelect f = .rejectType ∧
          ∀ (s : Store) (cid : Nat), submitAnalysis s cid f = .error .invalidInput)
      ∧ (allowedTypes.contains f.type = true → f.size > 10485760 →
          handleFileSelect f = .rejectSize ∧
          handleQuickUploadSelect f = .rejectSize ∧
          ∀ (s : Store) (cid : Nat), submitAnalysis s cid f = .error .invalidInput)
      ∧ (allowedTypes.contains f.type = true → f.size ≤ 10485760 →
          handleFileSelect f = .analyze f ∧
          handleQuickUploadSelect f = .analyze f ∧
          ∀ (s : Store) (cid : Nat) (c : Conversation), findConv s cid = some c →
            submitAnalysis s cid f =
              .ok ({ s with
                      scans := s.scans ++
                        [⟨s.nextScanId, cid, f.name, .pending, none, none⟩]
                      nextScanId := s.nextScanId + 1 }, s.nextScanId)) := by
  intro f
  refine ⟨?_, ?_, ?_⟩
  · intro htype
    have hmem : ¬ f.type ∈ allowedTypes := by simpa using htype
    have hval : validImageRef f = false := by simp [validImageRef, hmem]
    refine ⟨?_, ?_, ?_⟩
    · simp [handleFileSelect, hmem]
    · simp [handleQuickUploadSelect, hmem]
    · intro s cid
      simp [submitAnalysis, hval]
  · intro htype hsize
    have hmem : f.type ∈ allowedTypes := by simpa using htype
    have hval : validImageRef f = false := by
      simp [validImageRef, hmem]
      omega
    refine ⟨?_, ?_, ?_⟩
    · simp [handleFileSelect, hmem, hsize]
    · simp [handleQuickUploadSelect, hmem, hsize]
    · intro s cid
      simp [submitAnalysis, hval]
  · intro htype hsize
    have hmem : f.type ∈ allowedTypes := by simpa using htype
    have hnot : ¬ 10485760 < f.size := by omega
    have hval : validImageRef f = true := by simp [validImageRef, hmem, hsize]
    refine ⟨?_, ?_, ?_⟩
    · simp [handleFileSelect, hmem, hnot]
    · simp [handleQuickUploadSelect, hmem, hnot]
    · intro s cid c hc
      simp [submitAnalysis, hval, hc]

/-- A PDF file: wrong MIME type. -/
def c7PdfW : JSFile := ⟨"doc.pdf", "application/pdf", 1000⟩

/-- An oversized PNG: 10485761 bytes. -/
def c7BigW : JSFile := ⟨"big.png", "image/png", 10485761⟩

/-- A valid JPEG of exactly the size limit. -/
def c7GoodW : JSFile := ⟨"xray.jpg", "image/jpeg", 10485760⟩

/-- The store used by the C7 witness: one conversation, no scans. -/
def c7StoreW : Store :=
  ⟨[⟨0, 7, "New Conversation", 10, 10, 1⟩], [], [], 1, 1, 0⟩

/-- Witness for C7 at concrete files: a PDF and an oversized image are
rejected with no Scan created; a valid image at the exact size limit is
analyzed and creates a `Pending` Scan. -/
theorem c7_witness :
    (handleFileSelect c7PdfW = .rejectType ∧
      submitAnalysis c7StoreW 0 c7PdfW = .error .invalidInput)
    ∧ (handleFileSelect c7BigW = .rejectSize ∧
      submitAnalysis c7StoreW 0 c7BigW = .error .invalidInput)
    ∧ (handleFileSelect c7GoodW = .analyze c7GoodW ∧
      handleQuickUploadSelect c7GoodW = .analyze c7GoodW ∧
      submitAnalysis c7StoreW 0 c7GoodW =
        .ok ({ c7StoreW with
                scans := c7StoreW.scans ++
                  [⟨c7StoreW.nextScanId, 0, c7GoodW.name, .pending, none, none⟩]
                nextScanId := c7StoreW.nextScanId + 1 }, c7StoreW.nextScanId)) :=
  ⟨⟨((c7_upload_validation c7PdfW).1 rfl).1,
    ((c7_upload_validation c7PdfW).1 rfl).2.2 c7StoreW 0⟩,
   ⟨((c7_upload_validation c7BigW).2.1 rfl (by decide)).1,
    ((c7_upload_validation c7BigW).2.1 rfl (by decide)).2.2 c7StoreW 0⟩,
   ((c7_upload_validation c7GoodW).2.2 rfl (by decide)).1,
   ((c7_upload_validation c7GoodW).2.2 rfl (by decide)).2.1,
   ((c7_upload_validation c7GoodW).2.2 rfl (by decide)).2.2 c7StoreW 0
     ⟨0, 7, "New Conversation", 10, 10, 1⟩ rfl⟩

/-- C9 fails on the code: at the failing input (empty list, text "hi", API
failure, `Date.now()` = 0 at append time and 1 at catch time) the first
copy's filter compares against the freshly evaluated id `temp-1` and removes
nothing, so the displayed list keeps the temporary message instead of
returning to its pre-send state; the second copy's catch throws a
`ReferenceError` (its `userMessage` is out of scope) and also leaves the
temporary message in place. -/
theorem c9_sendMessage_not_rolled_back :
    sendMessageOnErrorV1 [] "hi" 0 1 = [mkTempMessage "hi" 0]
    ∧ sendMessageOnErrorV1 [] "hi" 0 1 ≠ []
    ∧ sendMessageOnErrorV2 [] "hi" 0 = ([mkTempMessage "hi" 0], some .referenceError)
    ∧ (sendMessageOnErrorV2 [] "hi" 0).1 ≠ []
    ∧ sendMessageOnErrorV1 [] "hi" 0 0 = [] := by
  refine ⟨by decide, by decide, by decide, by decide, by decide⟩

/-- C10: in `ChatMessage`, the Confidence Level block renders if and only
if `metadata.confidence` is truthy; the Objects Detected row renders if and
only if `metadata.detected_objects` is a non-empty array; hence a
confidence of exactly 0 renders as if absent, and the zero-detection
analysis metadata (`null` confidence, empty list) shows the Detection
Details panel with neither field. -/
theorem c10_chatmessage_truthiness :
    (∀ md : JSMetadata, showsConfidenceBlock (some md) = truthyNum md.confidence)
    ∧ (∀ md : JSMetadata, showsObjectsRow (some md) =
        (match md.detected_objects with
          | none => false
          | some l => !l.isEmpty))
    ∧ (∀ objs, showsConfidenceBlock (some ⟨some 0, objs⟩) = false)
    ∧ (showsDetectionPanel (some (Metadata.toJS (analysisMetadata []))) = true
        ∧ showsConfidenceBlock (some (Metadata.toJS (analysisMetadata []))) = false
        ∧ showsObjectsRow (some (Metadata.toJS (analysisMetadata []))) = false)
    ∧ showsDetectionPanel none = false := by
  refine ⟨fun md => rfl, ?_, ?_, ⟨rfl, rfl, rfl⟩, rfl⟩
  · intro md
    cases md with
    | mk conf objs =>
      cases objs with
      | none => rfl
      | some l => cases l <;> simp [showsObjectsRow, truthyArr]
  · intro objs
    simp [showsConfidenceBlock, truthyNum]
